import Mathlib

/-!
Verification of the incremental date-input parser (the `DateValidationDirective`
of this repository) against its natural-language specification.

The TypeScript code is shallowly embedded here.  JavaScript strings are
modelled as `List Char`; `String.prototype.slice`/`substring` with the
non-negative arguments used by the code become `List.take`/`List.drop`;
`Number(s)` becomes `jsNum : List Char → Option Nat`, where `none` models
`NaN` (every comparison against `NaN` is `false`, as in JavaScript, which the
`jsGT`/`jsLT`/`jsMemList` wrappers encode).  The mutable directive fields
`day`, `month`, `year`, `date` together with the configuration inputs become
the explicit `ParserState` record threaded through every function.
-/

set_option maxRecDepth 8192

/-- Display format of the input field: `mm/dd/yyyy` (month first) or
`dd/mm/yyyy` (day first). -/
inductive DateFormat where
  | mdy
  | dmy
deriving DecidableEq

/-- The per-session state of the directive: the immutable configuration
(`dateFormat`, `startYear`, `endYear`) and the mutable string fields
`day`, `month`, `year` and the committed `date`. -/
structure ParserState where
  dateFormat : DateFormat
  startYear : Nat
  endYear : Nat
  day : List Char
  month : List Char
  year : List Char
  date : List Char
deriving DecidableEq

/-- View a Lean string literal as the character list that models a JS string. -/
def jstr (s : String) : List Char := s.toList

/-- Numeric value of an all-digit character list (JS `Number` on digits). -/
def digitsToNat (s : List Char) : Nat :=
  s.foldl (fun a c => a * 10 + (c.toNat - 48)) 0

/-- JS `Number(s)` restricted to the strings the directive ever converts
(digits and `/` only): the empty string is `0`, an all-digit string is its
value, anything else is `NaN`, modelled as `none`. -/
def jsNum (s : List Char) : Option Nat :=
  if s = [] then some 0
  else if s.all Char.isDigit then some (digitsToNat s)
  else none

/-- JS `Number(s) > k`: comparisons against `NaN` are `false`. -/
def jsGT : Option Nat → Nat → Bool
  | some n, k => k < n
  | none, _ => false

/-- JS `Number(s) < k`: comparisons against `NaN` are `false`. -/
def jsLT : Option Nat → Nat → Bool
  | some n, k => n < k
  | none, _ => false

/-- JS `list.includes(Number(s))`: membership of `NaN` is `false`. -/
def jsMemList : Option Nat → List Nat → Bool
  | some n, l => l.contains n
  | none, _ => false

/-- Loop body of `findSlashPosition`: scan the characters, counting slashes,
and return the index of the `limit`-th slash, or `0` when there is none. -/
def fspGo : List Char → Nat → Nat → Nat → Nat
  | [], _, _, _ => 0
  | c :: rest, limit, count, i =>
    if c = '/' then
      if count + 1 = limit then i else fspGo rest limit (count + 1) (i + 1)
    else fspGo rest limit count (i + 1)

/-- `findSlashPosition(value, limit)`: index of the `limit`-th `/` in
`value`, or `0` when `value` has fewer than `limit` slashes. -/
def findSlashPosition (value : List Char) (limit : Nat) : Nat :=
  fspGo value limit 0 0

/-- `removeSlashAfterThirdOccurrence(value)`: cut the string at the position
of its third slash, when that position is positive. -/
def removeSlashAfterThirdOccurrence (value : List Char) : List Char :=
  let position := findSlashPosition value 3
  if 0 < position then value.take position else value

/-- `checkSlashPosition(value)`: a value starting with `/` becomes empty; a
value with more than two slashes is cut at its third slash; anything else is
returned unchanged. -/
def checkSlashPosition (value : List Char) : List Char :=
  if value.head? = some '/' then []
  else if 2 < value.count '/' then removeSlashAfterThirdOccurrence value
  else value

/-- The inline `replace(/[^0-9/]/g, '')` of `restrictInput`: keep only
digits and slashes. -/
def stripIllegalChars (value : List Char) : List Char :=
  value.filter (fun c => c.isDigit || c = '/')

/-- `removeLeadingZero(input)`: when the numeric value exceeds 9, drop every
leading zero; otherwise replace the leading run of zeros (if any) by a single
`'0'`. -/
def removeLeadingZero (input : List Char) : List Char :=
  if jsGT (jsNum input) 9 && (input.head? == some '0') then
    input.dropWhile (· = '0')
  else if input.head? = some '0' then
    '0' :: input.dropWhile (· = '0')
  else input

/-- `checkIsLeapYear(leapYear)`: divisible by 4 and not by 100, or divisible
by 400; `false` on a non-numeric string (every `NaN` comparison fails). -/
def checkIsLeapYear (leapYear : List Char) : Bool :=
  match jsNum leapYear with
  | some year => ((year % 4 == 0) && (year % 100 != 0)) || (year % 400 == 0)
  | none => false

/-- `getNoOfDays(month)`: 31 for the empty argument, 31 for months
1,3,5,7,8,10,12, 30 for months 4,6,9,11, and 29 otherwise. -/
def getNoOfDays (month : List Char) : Nat :=
  if month = [] then 31
  else if jsMemList (jsNum month) [1, 3, 5, 7, 8, 10, 12] then 31
  else if jsMemList (jsNum month) [4, 6, 9, 11] then 30
  else 29

/-- `validateMonthIfBeforeDay` (first field of `mm/dd/yyyy`): candidate
month above 12 reverts to the stored month; otherwise the normalized month
is stored and spliced back in front of the rest of the value. -/
def validateMonthIfBeforeDay (st : ParserState) (value : List Char)
    (monthDateDivider : Nat) : ParserState × List Char :=
  let month := if monthDateDivider = 0 then value else value.take monthDateDivider
  if jsGT (jsNum month) 12 then (st, st.month)
  else
    let m := removeLeadingZero month
    ({ st with month := m }, m ++ value.drop month.length)

/-- `validateDayIfBeforeMonth` (first field of `dd/mm/yyyy`): candidate day
above 31 reverts to the stored day; otherwise the normalized day is stored
and spliced back in front of the rest of the value. -/
def validateDayIfBeforeMonth (st : ParserState) (value : List Char)
    (monthDateDivider : Nat) : ParserState × List Char :=
  let day := if monthDateDivider = 0 then value else value.take monthDateDivider
  if jsGT (jsNum day) 31 then (st, st.day)
  else
    let d := removeLeadingZero day
    ({ st with day := d }, d ++ value.drop day.length)

/-- `validateDayIfAfterMonth` (second field of `mm/dd/yyyy`): sentinel month
`"0"` cuts the value at the first divider; an empty candidate day keeps the
prefix through the divider; a day above the stored month's day count reverts
to the stored day; otherwise the normalized day is stored and spliced in. -/
def validateDayIfAfterMonth (st : ParserState) (value : List Char)
    (monthDateDivider dateYearDivider : Nat) : ParserState × List Char :=
  let limit := monthDateDivider + 1
  let totalDays := getNoOfDays st.month
  let dayStartIndex := st.month.length + 1
  let valueBefore := value.take limit
  let day := if dateYearDivider = 0 then value.drop limit
             else (value.take dateYearDivider).drop limit
  if st.month = ['0'] then (st, value.take monthDateDivider)
  else if day = [] then (st, valueBefore)
  else if jsGT (jsNum day) totalDays then (st, valueBefore ++ st.day)
  else
    let d := removeLeadingZero day
    ({ st with day := d },
      value.take dayStartIndex ++ d ++ value.drop (dayStartIndex + day.length))

/-- `validateMonthIfAfterDay` (second field of `dd/mm/yyyy`): sentinel day
`"0"` cuts the value at the first divider; an empty candidate month keeps the
prefix through the divider; a month above 12, or a stored day above the
candidate month's day count, reverts to the stored month; otherwise the
normalized month is stored and spliced in. -/
def validateMonthIfAfterDay (st : ParserState) (value : List Char)
    (monthDateDivider dateYearDivider : Nat) : ParserState × List Char :=
  let limit := monthDateDivider + 1
  let monthStartIndex := st.day.length + 1
  let valueBefore := value.take limit
  let month := if dateYearDivider = 0 then value.drop limit
               else (value.take dateYearDivider).drop limit
  if st.day = ['0'] then (st, value.take monthDateDivider)
  else if month = [] then (st, valueBefore)
  else if jsGT (jsNum month) 12 || jsGT (jsNum st.day) (getNoOfDays month) then
    (st, valueBefore ++ st.month)
  else
    let m := removeLeadingZero month
    ({ st with month := m },
      value.take monthStartIndex ++ m ++ value.drop (monthStartIndex + month.length))

/-- `validateYear`: the candidate year is everything after the second
divider.  A sentinel day or month `"0"` cuts the value at the divider; a
year with a leading zero, or a year of length at least 4 below `startYear`,
or a year above `endYear`, reverts to the prefix through the divider plus the
stored year; February 29 of a four-digit non-leap year drops the last
character; otherwise the year is stored and the value returned unchanged. -/
def validateYear (st : ParserState) (value : List Char) (dateYearDivider : Nat) :
    ParserState × List Char :=
  let year := if dateYearDivider = 0 then [] else value.drop (dateYearDivider + 1)
  let previousValue := value.take (dateYearDivider + 1) ++ st.year
  if st.day = ['0'] ∨ st.month = ['0'] then (st, value.take dateYearDivider)
  else if year ≠ [] ∧ (year.head? = some '0' ∨
      ((4 ≤ year.length ∧ jsLT (jsNum year) st.startYear = true) ∨
        jsGT (jsNum year) st.endYear = true)) then
    (st, previousValue)
  else if year ≠ [] ∧ (st.month = ['2'] ∨ st.month = ['0', '2']) ∧
      st.day = ['2', '9'] ∧ year.length = 4 ∧ checkIsLeapYear year = false then
    (st, value.take (value.length - 1))
  else ({ st with year := year }, value)

/-- `clearSpecificPartOfDateIfEmpty`: without a first divider the field that
the divider would terminate (month for `dd/mm/yyyy`, day for `mm/dd/yyyy`) is
cleared; without a second divider the year is cleared. -/
def clearSpecificPartOfDateIfEmpty (st : ParserState)
    (monthDateDivider dateYearDivider : Nat) : ParserState :=
  let st1 := if st.dateFormat = DateFormat.dmy then
               (if monthDateDivider = 0 then { st with month := [] } else st)
             else
               (if monthDateDivider = 0 then { st with day := [] } else st)
  if dateYearDivider = 0 then { st1 with year := [] } else st1

/-- `rearrangeBasedOnDateFormat`: run the first-field validator, then, when a
first divider is present, the second-field validator, both picked by the
configured format. -/
def rearrangeBasedOnDateFormat (st : ParserState) (value : List Char)
    (monthDateDivider dateYearDivider : Nat) : ParserState × List Char :=
  let r1 := if st.dateFormat = DateFormat.mdy then
              validateMonthIfBeforeDay st value monthDateDivider
            else validateDayIfBeforeMonth st value monthDateDivider
  if monthDateDivider ≠ 0 then
    if st.dateFormat = DateFormat.mdy then
      validateDayIfAfterMonth r1.1 r1.2 monthDateDivider dateYearDivider
    else validateMonthIfAfterDay r1.1 r1.2 monthDateDivider dateYearDivider
  else r1

/-- `restrictInput` — the `process` operation of the spec: locate the two
dividers on the raw value, sanitize and rearrange, validate the year when a
second divider exists, clear unset fields, and truncate the display to 10
characters.  Returns the new state and the display string. -/
def restrictInput (st : ParserState) (value : List Char) : ParserState × List Char :=
  let monthDateDivider := findSlashPosition value 1
  let dateYearDivider := findSlashPosition value 2
  let r1 := rearrangeBasedOnDateFormat st (stripIllegalChars (checkSlashPosition value))
              monthDateDivider dateYearDivider
  let r2 := if dateYearDivider ≠ 0 then validateYear r1.1 r1.2 dateYearDivider else r1
  (clearSpecificPartOfDateIfEmpty r2.1 monthDateDivider dateYearDivider, r2.2.take 10)

/-- `clearDateIfNotValid` — the `finalize` operation of the spec: an empty
day or month, or a stored year numerically below `startYear` or above
`endYear`, clears the display and leaves the committed date untouched;
otherwise `day/month/year` is committed and the display kept. -/
def clearDateIfNotValid (st : ParserState) (display : List Char) :
    ParserState × List Char :=
  if st.day = [] ∨ st.month = [] ∨ jsLT (jsNum st.year) st.startYear = true ∨
      jsGT (jsNum st.year) st.endYear = true then
    (st, [])
  else
    ({ st with date := st.day ++ '/' :: (st.month ++ '/' :: st.year) }, display)

/-- A fresh session: empty fields with the given configuration. -/
def initialState (fmt : DateFormat) (startYear endYear : Nat) : ParserState :=
  ⟨fmt, startYear, endYear, [], [], [], []⟩

/-- Fresh `mm/dd/yyyy` session with the default year range 1000–9999. -/
def defMDY : ParserState := initialState DateFormat.mdy 1000 9999

/-- Specification-side companion of the slash scan: the (0-based) index of
the `n`-th slash of the list, or `none` when there are fewer than `n`
slashes.  Used to reason about `fspGo`, which returns `0` in the `none`
case. -/
def fspRel : List Char → Nat → Option Nat
  | [], _ => none
  | c :: rest, n =>
    if c = '/' then
      if n ≤ 1 then some 0 else (fspRel rest (n - 1)).map (· + 1)
    else (fspRel rest n).map (· + 1)

/-- The immutable part of a session: format and year bounds. -/
def sessionConfig (st : ParserState) : DateFormat × Nat × Nat :=
  (st.dateFormat, st.startYear, st.endYear)

/-- After every `dropWhile (· = '0')` the head is not `'0'`. -/
theorem head?_dropWhile_zero (s : List Char) :
    (s.dropWhile (· = '0')).head? ≠ some '0' := by
  induction s with
  | nil => simp [List.dropWhile]
  | cons c t ih =>
    by_cases hc : c = '0'
    · simpa [List.dropWhile, hc] using ih
    · simp [List.dropWhile, hc]

/-- Claim C2: for every parser state and every raw input, the display string
returned by `restrictInput` has length at most 10 characters. -/
theorem claim_C2_length_bound (st : ParserState) (raw : List Char) :
    (restrictInput st raw).2.length ≤ 10 := by
  dsimp only [restrictInput]
  simp [List.length_take]

/-- Claim C3, counterexample: `getNoOfDays` on the unset (empty) month
returns 31, not the 29 the claim states. -/
theorem claim_C3_counterexample :
    getNoOfDays [] = 31 ∧ ¬ getNoOfDays [] = 29 := by decide

/-- Claim C3, amended: months 1,3,5,7,8,10,12 have 31 days, months 4,6,9,11
have 30 days, every other numeric month (February included) falls back to 29,
a non-numeric month falls back to 29, but the unset (empty) month argument
yields 31, not 29. -/
theorem claim_C3_amended :
    getNoOfDays [] = 31 ∧
    (∀ m n, jsNum m = some n →
      (n ∈ [1, 3, 5, 7, 8, 10, 12] → getNoOfDays m = 31) ∧
      (n ∈ [4, 6, 9, 11] → getNoOfDays m = 30) ∧
      (m ≠ [] → n ∉ [1, 3, 5, 7, 8, 10, 12] → n ∉ [4, 6, 9, 11] →
        getNoOfDays m = 29)) ∧
    (∀ m, jsNum m = none → getNoOfDays m = 29) := by
  refine ⟨by decide, ?_, ?_⟩
  · intro m n hn
    have hne : m ≠ [] → getNoOfDays m =
        (if jsMemList (some n) [1, 3, 5, 7, 8, 10, 12] then 31
         else if jsMemList (some n) [4, 6, 9, 11] then 30 else 29) := by
      intro h; rw [getNoOfDays, if_neg h, hn]
    refine ⟨?_, ?_, ?_⟩
    · intro hmem
      have hm : m ≠ [] := by
        rintro rfl
        have h0 : n = 0 := by simpa [jsNum] using hn.symm
        subst h0; simp at hmem
      rw [hne hm]
      simp [jsMemList, List.contains, List.elem_iff, hmem]
    · intro hmem
      have hm : m ≠ [] := by
        rintro rfl
        have h0 : n = 0 := by simpa [jsNum] using hn.symm
        subst h0; simp at hmem
      rw [hne hm]
      have hmem' : n = 4 ∨ n = 6 ∨ n = 9 ∨ n = 11 := by simpa using hmem
      rcases hmem' with rfl | rfl | rfl | rfl <;> decide
    · intro hm h1 h2
      rw [hne hm]
      simp [jsMemList, List.contains, List.elem_iff, h1, h2]
  · intro m hm
    have hne : m ≠ [] := by rintro rfl; simp [jsNum] at hm
    simp [getNoOfDays, hne, hm, jsMemList]

/-- Claim C4, counterexample: `removeLeadingZero "03"` is `"03"`, not the
`"0"` the claim states, and after `restrictInput` on the input `"03"` the
stored month is `"03"` — a non-sentinel field with a leading zero. -/
theorem claim_C4_counterexample :
    removeLeadingZero (jstr "03") = jstr "03" ∧ ¬ jstr "03" = jstr "0" ∧
    (restrictInput defMDY (jstr "03")).1.month = jstr "03" := by decide

/-- Claim C4, amended: a numeric value above 9 has all leading zeros
stripped; otherwise the leading run of zeros (if any) collapses to a single
`'0'` — so `"0"` stays `"0"`, `"003"` becomes `"03"`, and `"03"` stays
`"03"`.  The result never carries two leading zeros, but a stored day or
month may retain a single leading zero (e.g. `"03"`). -/
theorem claim_C4_amended :
    (∀ s, jsGT (jsNum s) 9 = true → removeLeadingZero s = s.dropWhile (· = '0')) ∧
    (∀ s, jsGT (jsNum s) 9 = false →
      removeLeadingZero s =
        if s.head? = some '0' then '0' :: s.dropWhile (· = '0') else s) ∧
    (∀ s, (removeLeadingZero s).take 2 ≠ ['0', '0']) ∧
    (restrictInput defMDY (jstr "03")).1.month = jstr "03" := by
  refine ⟨?_, ?_, ?_, by decide⟩
  · intro s hgt
    by_cases hh : s.head? = some '0'
    · simp [removeLeadingZero, hgt, hh]
    · have hdw : s.dropWhile (· = '0') = s := by
        cases s with
        | nil => rfl
        | cons c t =>
          have : c ≠ '0' := by simpa using hh
          simp [List.dropWhile, this]
      simp [removeLeadingZero, hgt, hh, hdw]
  · intro s hgt
    simp [removeLeadingZero, hgt]
  · intro s h
    have key : ∀ t : List Char, t.head? ≠ some '0' → t.take 2 ≠ ['0', '0'] := by
      intro t ht hcontra
      cases t with
      | nil => simp at hcontra
      | cons c u =>
        have : c = '0' := by simpa using congrArg List.head? hcontra
        exact ht (by simp [this])
    unfold removeLeadingZero at h
    split at h
    · exact key _ (head?_dropWhile_zero s) h
    · split at h
      · have : ((s.dropWhile (· = '0')).take 1) = ['0'] := by
          simpa [List.take] using congrArg List.tail h
        cases hdw : s.dropWhile (· = '0') with
        | nil => rw [hdw] at this; simp at this
        | cons c u =>
          have hc : c = '0' := by rw [hdw] at this; simpa [List.take] using this
          exact head?_dropWhile_zero s (by rw [hdw, hc]; rfl)
      · exact key s (by assumption) h

/-- Claim C1, counterexample: for the MDY input `"02/29/0100"` the stored day
is `"29"`, the stored month is `"02"`, the candidate year `"0100"` has exactly
4 digits and fails the leap-year test, yet the display is `"02/29/"` — the
year segment is dropped entirely rather than only its last character. -/
theorem claim_C1_counterexample :
    (restrictInput defMDY (jstr "02/29/0100")).1.day = jstr "29" ∧
    (restrictInput defMDY (jstr "02/29/0100")).1.month = jstr "02" ∧
    checkIsLeapYear (jstr "0100") = false ∧
    (restrictInput defMDY (jstr "02/29/0100")).2 = jstr "02/29/" ∧
    ¬ jstr "02/29/" = jstr "02/29/010" := by decide

/-- Claim C8, counterexample: from a fresh MDY session, processing
`"003/29/2020"` yields the display `"03/9//2"`, but re-processing that
display yields the strictly different display `"03/9/"` — `process` is not
idempotent on its own output. -/
theorem claim_C8_counterexample :
    (restrictInput defMDY (jstr "003/29/2020")).2 = jstr "03/9//2" ∧
    (restrictInput (restrictInput defMDY (jstr "003/29/2020")).1
        (jstr "03/9//2")).2 = jstr "03/9/" ∧
    ¬ jstr "03/9/" = jstr "03/9//2" := by decide

/-- Claim C8, amended: re-processing a produced display may correct it
further, so one application does not suffice; repeated application reaches a
fixed point.  On `"003/29/2020"` from a fresh MDY session the displays are
`"03/9//2"`, then `"03/9/"`, and the third application returns the same state
and display, so the display is stable from then on. -/
theorem claim_C8_amended :
    (restrictInput (restrictInput defMDY (jstr "003/29/2020")).1
        (jstr "03/9//2")).2 = jstr "03/9/" ∧
    restrictInput
        (restrictInput (restrictInput defMDY (jstr "003/29/2020")).1
          (jstr "03/9//2")).1 (jstr "03/9/") =
      ((restrictInput (restrictInput defMDY (jstr "003/29/2020")).1
          (jstr "03/9//2")).1, jstr "03/9/") := by decide

/-- The scan loop agrees with the specification-side `fspRel`: starting with
`count` slashes already seen and absolute offset `i`, it returns `i` plus the
relative index of the `(limit - count)`-th slash, or `0` when that slash does
not exist. -/
theorem fspGo_eq_fspRel (v : List Char) :
    ∀ limit count i, count < limit →
      fspGo v limit count i =
        (match fspRel v (limit - count) with
         | some j => i + j
         | none => 0) := by
  induction v with
  | nil => intro limit count i _; rfl
  | cons c rest ih =>
    intro limit count i h
    by_cases hc : c = '/'
    · subst hc
      by_cases heq : count + 1 = limit
      · have h1 : limit - count ≤ 1 := by omega
        simp [fspGo, fspRel, heq, h1]
      · have h1 : ¬ limit - count ≤ 1 := by omega
        have h2 : count + 1 < limit := by omega
        have h3 : limit - (count + 1) = limit - count - 1 := by omega
        rw [show fspGo ('/' :: rest) limit count i =
              fspGo rest limit (count + 1) (i + 1) by simp [fspGo, heq]]
        rw [ih limit (count + 1) (i + 1) h2, h3]
        simp only [fspRel, if_pos rfl, if_neg h1]
        cases hr : fspRel rest (limit - count - 1) <;> simp [hr, Nat.add_assoc, Nat.add_comm 1]
    · rw [show fspGo (c :: rest) limit count i = fspGo rest limit count (i + 1) by
        simp [fspGo, hc]]
      rw [ih limit count (i + 1) h]
      simp only [fspRel, if_neg hc]
      cases hr : fspRel rest (limit - count) <;> simp [hr, Nat.add_assoc, Nat.add_comm 1]

/-- `findSlashPosition` is `fspRel` with the missing case mapped to `0`. -/
theorem findSlashPosition_eq_fspRel (v : List Char) (limit : Nat) (h : 0 < limit) :
    findSlashPosition v limit = (fspRel v limit).getD 0 := by
  rw [findSlashPosition, fspGo_eq_fspRel v limit 0 0 h]
  cases hr : fspRel v (limit - 0) <;> simp_all

/-- When `fspRel` finds the `n`-th slash, the returned index carries a slash,
lies inside the list, and has exactly `n - 1` slashes strictly before it. -/
theorem fspRel_some_spec (v : List Char) :
    ∀ n j, 0 < n → fspRel v n = some j →
      j < v.length ∧ v.get? j = some '/' ∧ (v.take j).count '/' = n - 1 := by
  induction v with
  | nil => intro n j _ h; simp [fspRel] at h
  | cons c rest ih =>
    intro n j hn h
    by_cases hc : c = '/'
    · subst hc
      by_cases h1 : n ≤ 1
      · have hj : j = 0 := by simpa [fspRel, h1] using h.symm
        subst hj
        have : n = 1 := by omega
        subst this
        simp
      · rw [fspRel, if_pos rfl, if_neg h1] at h
        obtain ⟨j', hj', rfl⟩ : ∃ j', fspRel rest (n - 1) = some j' ∧ j = j' + 1 := by
          cases hr : fspRel rest (n - 1) <;> simp [hr] at h <;> simp [h.symm]
        obtain ⟨hl, hg, hcnt⟩ := ih (n - 1) j' (by omega) hj'
        refine ⟨by simpa using hl, by simpa using hg, ?_⟩
        simp only [List.take_succ_cons, List.count_cons, hcnt]
        simp
        omega
    · rw [fspRel, if_neg hc] at h
      obtain ⟨j', hj', rfl⟩ : ∃ j', fspRel rest n = some j' ∧ j = j' + 1 := by
        cases hr : fspRel rest n <;> simp [hr] at h <;> simp [h.symm]
      obtain ⟨hl, hg, hcnt⟩ := ih n j' hn hj'
      refine ⟨by simpa using hl, by simpa using hg, ?_⟩
      simp [List.take_succ_cons, List.count_cons, hcnt, hc]

/-- `fspRel` fails exactly when the list has fewer than `n` slashes. -/
theorem fspRel_eq_none_iff (v : List Char) :
    ∀ n, 0 < n → (fspRel v n = none ↔ v.count '/' < n) := by
  induction v with
  | nil => intro n hn; simp [fspRel, hn]
  | cons c rest ih =>
    intro n hn
    by_cases hc : c = '/'
    · subst hc
      by_cases h1 : n ≤ 1
      · have : n = 1 := by omega
        subst this
        simp [fspRel, List.count_cons]
      · rw [fspRel, if_pos rfl, if_neg h1]
        have := ih (n - 1) (by omega)
        constructor
        · intro h
          have : fspRel rest (n - 1) = none := by
            cases hr : fspRel rest (n - 1) <;> simp [hr] at h ⊢
          have hcount := (ih (n - 1) (by omega)).1 this
          simp [List.count_cons]
          omega
        · intro h
          have hcount : rest.count '/' < n - 1 := by
            simp [List.count_cons] at h
            omega
          rw [(ih (n - 1) (by omega)).2 hcount]
          rfl
    · rw [fspRel, if_neg hc]
      have := ih n hn
      rw [List.count_cons, if_neg (by simpa using hc)]
      constructor
      · intro h
        exact this.1 (by cases hr : fspRel rest n <;> simp [hr] at h ⊢)
      · intro h
        rw [this.2 (by simpa using h)]
        rfl

/-- When the count target is already reached or exceeded the scan never
fires and returns `0`. -/
theorem fspGo_le (v : List Char) :
    ∀ limit count i, limit ≤ count → fspGo v limit count i = 0 := by
  induction v with
  | nil => intro limit count i _; rfl
  | cons c rest ih =>
    intro limit count i h
    by_cases hc : c = '/'
    · have hne : ¬ count + 1 = limit := by omega
      rw [show fspGo (c :: rest) limit count i =
            fspGo rest limit (count + 1) (i + 1) by simp [fspGo, hc, hne]]
      exact ih limit (count + 1) (i + 1) (by omega)
    · rw [show fspGo (c :: rest) limit count i = fspGo rest limit count (i + 1) by
        simp [fspGo, hc]]
      exact ih limit count (i + 1) h

/-- Claim C10: the separator sanitization step returns a string with at most
two slashes; an input starting with `/` becomes empty, an input with more
than two slashes is cut at the position of its third slash (a positive
position), and any other input is returned unchanged. -/
theorem claim_C10 (v : List Char) :
    (checkSlashPosition v).count '/' ≤ 2 ∧
    (v.head? = some '/' → checkSlashPosition v = []) ∧
    (v.head? ≠ some '/' → 2 < v.count '/' →
      checkSlashPosition v = v.take (findSlashPosition v 3) ∧
      0 < findSlashPosition v 3) ∧
    (v.head? ≠ some '/' → v.count '/' ≤ 2 → checkSlashPosition v = v) := by
  by_cases hh : v.head? = some '/'
  · refine ⟨?_, fun _ => by simp [checkSlashPosition, hh], fun h => absurd hh h,
      fun h => absurd hh h⟩
    simp [checkSlashPosition, hh]
  · by_cases hcnt : 2 < v.count '/'
    · obtain ⟨j, hj⟩ : ∃ j, fspRel v 3 = some j := by
        cases hr : fspRel v 3 with
        | none => exact absurd ((fspRel_eq_none_iff v 3 (by omega)).1 hr) (by omega)
        | some j => exact ⟨j, rfl⟩
      obtain ⟨hlt, hget, hcount⟩ := fspRel_some_spec v 3 j (by omega) hj
      have hfsp : findSlashPosition v 3 = j := by
        rw [findSlashPosition_eq_fspRel v 3 (by omega), hj]; rfl
      have hjpos : 0 < j := by
        rcases Nat.eq_zero_or_pos j with rfl | h
        · cases v with
          | nil => simp at hget
          | cons c t =>
            have : c = '/' := by simpa using hget
            exact absurd (by simp [this]) hh
        · exact h
      have hcsp : checkSlashPosition v = v.take j := by
        rw [checkSlashPosition, if_neg hh, if_pos hcnt,
          removeSlashAfterThirdOccurrence]
        simp only [hfsp, if_pos hjpos]
      refine ⟨by rw [hcsp, hcount], fun h => absurd h hh,
        fun _ _ => ⟨by rw [hcsp, hfsp], by rw [hfsp]; exact hjpos⟩,
        fun _ hle => absurd hcnt (by omega)⟩
    · have hcsp : checkSlashPosition v = v := by
        rw [checkSlashPosition, if_neg hh, if_neg hcnt]
      refine ⟨by rw [hcsp]; omega, fun h => absurd h hh,
        fun _ hgt => absurd hgt hcnt, fun _ _ => hcsp⟩

/-- Witness for C10 at concrete inputs from each branch. -/
theorem claim_C10_witness :
    checkSlashPosition (jstr "/12") = [] ∧
    checkSlashPosition (jstr "1/2/3/4") =
      (jstr "1/2/3/4").take (findSlashPosition (jstr "1/2/3/4") 3) ∧
    checkSlashPosition (jstr "1/2") = jstr "1/2" :=
  ⟨(claim_C10 (jstr "/12")).2.1 (by decide),
    ((claim_C10 (jstr "1/2/3/4")).2.2.1 (by decide) (by decide)).1,
    (claim_C10 (jstr "1/2")).2.2.2 (by decide) (by decide)⟩

theorem config_validateMonthIfBeforeDay (st : ParserState) (value : List Char)
    (d1 : Nat) :
    sessionConfig (validateMonthIfBeforeDay st value d1).1 = sessionConfig st := by
  simp only [validateMonthIfBeforeDay]
  split_ifs <;> rfl

theorem config_validateDayIfBeforeMonth (st : ParserState) (value : List Char)
    (d1 : Nat) :
    sessionConfig (validateDayIfBeforeMonth st value d1).1 = sessionConfig st := by
  simp only [validateDayIfBeforeMonth]
  split_ifs <;> rfl

theorem config_validateDayIfAfterMonth (st : ParserState) (value : List Char)
    (d1 d2 : Nat) :
    sessionConfig (validateDayIfAfterMonth st value d1 d2).1 = sessionConfig st := by
  simp only [validateDayIfAfterMonth]
  split_ifs <;> rfl

theorem config_validateMonthIfAfterDay (st : ParserState) (value : List Char)
    (d1 d2 : Nat) :
    sessionConfig (validateMonthIfAfterDay st value d1 d2).1 = sessionConfig st := by
  simp only [validateMonthIfAfterDay]
  split_ifs <;> rfl

theorem config_validateYear (st : ParserState) (value : List Char) (d2 : Nat) :
    sessionConfig (validateYear st value d2).1 = sessionConfig st := by
  simp only [validateYear]
  split_ifs <;> rfl

theorem config_clearSpecificPartOfDateIfEmpty (st : ParserState) (d1 d2 : Nat) :
    sessionConfig (clearSpecificPartOfDateIfEmpty st d1 d2) = sessionConfig st := by
  simp only [clearSpecificPartOfDateIfEmpty]
  split_ifs <;> rfl

theorem config_rearrangeBasedOnDateFormat (st : ParserState) (value : List Char)
    (d1 d2 : Nat) :
    sessionConfig (rearrangeBasedOnDateFormat st value d1 d2).1 = sessionConfig st := by
  simp only [rearrangeBasedOnDateFormat]
  split_ifs <;>
    simp [config_validateDayIfAfterMonth, config_validateMonthIfAfterDay,
      config_validateMonthIfBeforeDay, config_validateDayIfBeforeMonth]

theorem config_restrictInput (st : ParserState) (raw : List Char) :
    sessionConfig (restrictInput st raw).1 = sessionConfig st := by
  simp only [restrictInput]
  split_ifs <;>
    simp [config_clearSpecificPartOfDateIfEmpty, config_validateYear,
      config_rearrangeBasedOnDateFormat]

/-- Claim C9: `process` is total and locally recovering — the session
configuration survives every call unchanged (the state stays a well-formed
session, so a display is always produced); an over-limit first-field
candidate reverts to the stored month (resp. day) with the state untouched;
a leading-zero year candidate reverts to the prefix through the divider plus
the stored year with the state untouched; and the slash scanner always
returns `0` or the index of an actual slash inside the string. -/
theorem claim_C9 :
    (∀ st raw, sessionConfig (restrictInput st raw).1 = sessionConfig st) ∧
    (∀ st value d1,
      jsGT (jsNum (if d1 = 0 then value else value.take d1)) 12 = true →
      validateMonthIfBeforeDay st value d1 = (st, st.month)) ∧
    (∀ st value d1,
      jsGT (jsNum (if d1 = 0 then value else value.take d1)) 31 = true →
      validateDayIfBeforeMonth st value d1 = (st, st.day)) ∧
    (∀ st value d2, d2 ≠ 0 → st.day ≠ ['0'] → st.month ≠ ['0'] →
      (value.drop (d2 + 1)).head? = some '0' →
      validateYear st value d2 = (st, value.take (d2 + 1) ++ st.year)) ∧
    (∀ v limit, findSlashPosition v limit = 0 ∨
      ∃ j, j < v.length ∧ v.get? j = some '/' ∧ findSlashPosition v limit = j) := by
  refine ⟨config_restrictInput, ?_, ?_, ?_, ?_⟩
  · intro st value d1 h
    simp [validateMonthIfBeforeDay, h]
  · intro st value d1 h
    simp [validateDayIfBeforeMonth, h]
  · intro st value d2 h2 hd hm hh
    have hy : (if d2 = 0 then ([] : List Char) else value.drop (d2 + 1)) =
        value.drop (d2 + 1) := if_neg h2
    have hne : value.drop (d2 + 1) ≠ [] := by
      intro h; rw [h] at hh; simp at hh
    simp only [validateYear, hy]
    rw [if_neg (by rintro (h | h) <;> [exact hd h; exact hm h]),
      if_pos ⟨hne, Or.inl hh⟩]
  · intro v limit
    rcases Nat.eq_zero_or_pos limit with rfl | hpos
    · exact Or.inl (fspGo_le v 0 0 0 (le_refl 0))
    · rw [findSlashPosition_eq_fspRel v limit hpos]
      cases hr : fspRel v limit with
      | none => exact Or.inl rfl
      | some j =>
        obtain ⟨hlt, hget, _⟩ := fspRel_some_spec v limit j hpos hr
        exact Or.inr ⟨j, hlt, hget, rfl⟩

/-- Witness for C9: the hypothesis-bearing parts applied at concrete
inputs — the over-limit month `"13"`, the over-limit day `"32"`, and a
leading-zero year candidate. -/
theorem claim_C9_witness :
    validateMonthIfBeforeDay defMDY (jstr "13") 0 = (defMDY, defMDY.month) ∧
    validateDayIfBeforeMonth defMDY (jstr "32") 0 = (defMDY, defMDY.day) ∧
    validateYear defMDY (jstr "1/1/0200") 3 =
      (defMDY, (jstr "1/1/0200").take 4 ++ defMDY.year) :=
  ⟨claim_C9.2.1 defMDY (jstr "13") 0 (by decide),
    claim_C9.2.2.1 defMDY (jstr "32") 0 (by decide),
    claim_C9.2.2.2.1 defMDY (jstr "1/1/0200") 3 (by decide) (by decide) (by decide)
      (by decide)⟩

/-- A digit character's code point lies between 48 and 57. -/
theorem isDigit_toNat_bounds (c : Char) (h : c.isDigit = true) :
    48 ≤ c.toNat ∧ c.toNat ≤ 57 := by
  simp only [Char.isDigit, Bool.and_eq_true, decide_eq_true_eq] at h
  exact ⟨h.1, h.2⟩

/-- Accumulator bound for the digit fold behind `digitsToNat`. -/
theorem foldl_digits_lt (s : List Char) :
    ∀ a, (∀ c ∈ s, c.isDigit = true) →
      s.foldl (fun a c => a * 10 + (c.toNat - 48)) a < (a + 1) * 10 ^ s.length := by
  induction s with
  | nil => intro a _; simpa using Nat.lt_succ_self a
  | cons c t ih =>
    intro a hs
    have hc := isDigit_toNat_bounds c (hs c (by simp))
    have step := ih (a * 10 + (c.toNat - 48)) (fun d hd => hs d (by simp [hd]))
    have h1 : a * 10 + (c.toNat - 48) + 1 ≤ (a + 1) * 10 := by omega
    have h2 : (a * 10 + (c.toNat - 48) + 1) * 10 ^ t.length ≤
        ((a + 1) * 10) * 10 ^ t.length := Nat.mul_le_mul_right _ h1
    have h3 : ((a + 1) * 10) * 10 ^ t.length = (a + 1) * 10 ^ (t.length + 1) := by ring
    simp only [List.foldl_cons, List.length_cons]
    exact lt_of_lt_of_le step (by rw [← h3]; exact h2)

/-- An all-digit string of length `k` has numeric value below `10 ^ k`. -/
theorem digitsToNat_lt (s : List Char) (hs : s.all Char.isDigit = true) :
    digitsToNat s < 10 ^ s.length := by
  have h := foldl_digits_lt s 0 (fun c hc => by
    have := List.all_eq_true.mp hs c hc
    simpa using this)
  simpa [digitsToNat] using h

/-- `jsNum` on a nonempty all-digit string is its numeric value. -/
theorem jsNum_digits (s : List Char) (hne : s ≠ []) (hs : s.all Char.isDigit = true) :
    jsNum s = some (digitsToNat s) := by
  simp [jsNum, hne, hs]

theorem validateMonthIfBeforeDay_nil (st : ParserState) :
    validateMonthIfBeforeDay st [] 0 = ({ st with month := [] }, []) := by
  simp [validateMonthIfBeforeDay, jsNum, jsGT, removeLeadingZero, digitsToNat]

theorem validateDayIfBeforeMonth_nil (st : ParserState) :
    validateDayIfBeforeMonth st [] 0 = ({ st with day := [] }, []) := by
  simp [validateDayIfBeforeMonth, jsNum, jsGT, removeLeadingZero, digitsToNat]

theorem validateYear_nil_display (st : ParserState) (d2 : Nat) :
    (validateYear st [] d2).2 = [] := by
  simp only [validateYear, List.drop_nil, ite_self, List.take_nil]
  split_ifs with h1 h2 h3
  · rfl
  · exact absurd rfl h2.1
  · exact absurd rfl h3.1
  · rfl

/-- Claim C5: every input that starts with the separator character `/`
produces the empty display. -/
theorem claim_C5 (st : ParserState) (raw : List Char) (h : raw.head? = some '/') :
    (restrictInput st raw).2 = [] := by
  obtain ⟨c, rest, rfl⟩ : ∃ c rest, raw = c :: rest := by
    cases raw with
    | nil => simp at h
    | cons c rest => exact ⟨c, rest, rfl⟩
  have hc : c = '/' := by simpa using h
  subst hc
  have hd1 : findSlashPosition ('/' :: rest) 1 = 0 := by
    simp [findSlashPosition, fspGo]
  have hstrip : stripIllegalChars (checkSlashPosition ('/' :: rest)) = [] := by
    simp [checkSlashPosition, stripIllegalChars]
  have hre : ∀ d2, (rearrangeBasedOnDateFormat st [] 0 d2).2 = [] := by
    intro d2
    simp only [rearrangeBasedOnDateFormat]
    rw [if_neg (by simp)]
    split
    · simp [validateMonthIfBeforeDay_nil]
    · simp [validateDayIfBeforeMonth_nil]
  dsimp only [restrictInput]
  rw [hd1, hstrip]
  split
  · rw [hre, validateYear_nil_display]
    rfl
  · rw [hre]
    rfl

/-- Witness for C5: the spec's own example input `"/1/2020"`. -/
theorem claim_C5_witness : (restrictInput defMDY (jstr "/1/2020")).2 = [] :=
  claim_C5 defMDY (jstr "/1/2020") (by decide)

/-- Claim C6: with the configuration precondition
`1000 ≤ startYear ≤ endYear ≤ 9999` (and no sentinel day/month), a candidate
year of length at least 4 whose value is outside `[startYear, endYear]` is
rejected — the display reverts to the prefix through the second separator
plus the stored year — while every candidate year of length below 4 without
a leading zero digit is accepted with no range check. -/
theorem claim_C6 (st : ParserState) (value : List Char) (d2 : Nat)
    (hc1 : 1000 ≤ st.startYear) (hc2 : st.startYear ≤ st.endYear)
    (hc3 : st.endYear ≤ 9999)
    (hday : st.day ≠ ['0']) (hmonth : st.month ≠ ['0']) (hd2 : d2 ≠ 0) :
    (∀ n, jsNum (value.drop (d2 + 1)) = some n →
      4 ≤ (value.drop (d2 + 1)).length → (n < st.startYear ∨ st.endYear < n) →
      validateYear st value d2 = (st, value.take (d2 + 1) ++ st.year)) ∧
    ((value.drop (d2 + 1)).all Char.isDigit = true →
      (value.drop (d2 + 1)).length < 4 →
      (value.drop (d2 + 1)).head? ≠ some '0' →
      validateYear st value d2 = ({ st with year := value.drop (d2 + 1) }, value)) := by
  have hy : (if d2 = 0 then ([] : List Char) else value.drop (d2 + 1)) =
      value.drop (d2 + 1) := if_neg hd2
  have hsent : ¬ (st.day = ['0'] ∨ st.month = ['0']) := by
    rintro (h | h)
    exacts [hday h, hmonth h]
  constructor
  · intro n hn hlen hout
    have hne : value.drop (d2 + 1) ≠ [] := by
      intro h; rw [h] at hlen; simp at hlen
    have hcond : value.drop (d2 + 1) ≠ [] ∧
        ((value.drop (d2 + 1)).head? = some '0' ∨
          ((4 ≤ (value.drop (d2 + 1)).length ∧
              jsLT (jsNum (value.drop (d2 + 1))) st.startYear = true) ∨
            jsGT (jsNum (value.drop (d2 + 1))) st.endYear = true)) := by
      refine ⟨hne, Or.inr ?_⟩
      rcases hout with h | h
      · exact Or.inl ⟨hlen, by rw [hn]; simpa [jsLT] using h⟩
      · exact Or.inr (by rw [hn]; simpa [jsGT] using h)
    simp only [validateYear, hy]
    rw [if_neg hsent, if_pos hcond]
  · intro hdig hlen hhead
    by_cases hne : value.drop (d2 + 1) = []
    · simp only [validateYear, hy]
      rw [if_neg hsent, if_neg (by rintro ⟨h, -⟩; exact h hne),
        if_neg (by rintro ⟨h, -⟩; exact h hne)]
    · have hn : jsNum (value.drop (d2 + 1)) =
          some (digitsToNat (value.drop (d2 + 1))) := jsNum_digits _ hne hdig
      have hlt : digitsToNat (value.drop (d2 + 1)) < 1000 := by
        have h10 := digitsToNat_lt _ hdig
        have hpow : (10 : Nat) ^ (value.drop (d2 + 1)).length ≤ 10 ^ 3 :=
          Nat.pow_le_pow_right (by omega) (by omega)
        calc digitsToNat (value.drop (d2 + 1)) < 10 ^ (value.drop (d2 + 1)).length :=
              h10
          _ ≤ 1000 := hpow
      have hA : ¬ (value.drop (d2 + 1) ≠ [] ∧
          ((value.drop (d2 + 1)).head? = some '0' ∨
            ((4 ≤ (value.drop (d2 + 1)).length ∧
                jsLT (jsNum (value.drop (d2 + 1))) st.startYear = true) ∨
              jsGT (jsNum (value.drop (d2 + 1))) st.endYear = true))) := by
        rintro ⟨-, h | ⟨h4, -⟩ | h⟩
        · exact hhead h
        · omega
        · rw [hn] at h; simp [jsGT] at h; omega
      have hB : ¬ (value.drop (d2 + 1) ≠ [] ∧
          (st.month = ['2'] ∨ st.month = ['0', '2']) ∧ st.day = ['2', '9'] ∧
          (value.drop (d2 + 1)).length = 4 ∧
          checkIsLeapYear (value.drop (d2 + 1)) = false) := by
        rintro ⟨-, -, -, h4, -⟩; omega
      simp only [validateYear, hy]
      rw [if_neg hsent, if_neg hA, if_neg hB]

/-- Witness for C6: the spec's range example with `startYear = 2000`,
`endYear = 2030` — the four-digit year `1999` reverts on the input
`"1/1/1999"`, and the partial year `"20"` on `"1/1/20"` is accepted. -/
theorem claim_C6_witness :
    validateYear ⟨DateFormat.mdy, 2000, 2030, jstr "1", jstr "1", [], []⟩
        (jstr "1/1/1999") 3 =
      (⟨DateFormat.mdy, 2000, 2030, jstr "1", jstr "1", [], []⟩,
        (jstr "1/1/1999").take 4) ∧
    validateYear ⟨DateFormat.mdy, 2000, 2030, jstr "1", jstr "1", [], []⟩
        (jstr "1/1/20") 3 =
      (⟨DateFormat.mdy, 2000, 2030, jstr "1", jstr "1", jstr "20", []⟩,
        jstr "1/1/20") := by
  constructor
  · have h := (claim_C6 ⟨DateFormat.mdy, 2000, 2030, jstr "1", jstr "1", [], []⟩
      (jstr "1/1/1999") 3 (by decide) (by decide) (by decide) (by decide)
      (by decide) (by decide)).1 1999 (by decide) (by decide) (Or.inl (by decide))
    exact h.trans (by decide)
  · have h := (claim_C6 ⟨DateFormat.mdy, 2000, 2030, jstr "1", jstr "1", [], []⟩
      (jstr "1/1/20") 3 (by decide) (by decide) (by decide) (by decide)
      (by decide) (by decide)).2 (by decide) (by decide) (by decide)
    exact h.trans (by decide)

/-- Claim C1, amended: in an MDY session with stored day `"29"` and stored
month `"2"` or `"02"`, a candidate year of exactly 4 digits that does not
begin with `'0'` and lies within `[startYear, endYear]` is kept iff the
leap-year test passes; when it fails the display is the value with its last
character removed.  (A 4-digit candidate that begins with `'0'` or falls
outside the range instead reverts to the stored year, per the
counterexample.) -/
theorem claim_C1_amended (st : ParserState) (value : List Char) (d2 : Nat)
    (hfmt : st.dateFormat = DateFormat.mdy)
    (hday : st.day = jstr "29")
    (hmonth : st.month = jstr "2" ∨ st.month = jstr "02")
    (hd2 : d2 ≠ 0)
    (hlen : (value.drop (d2 + 1)).length = 4)
    (hdig : (value.drop (d2 + 1)).all Char.isDigit = true)
    (hhead : (value.drop (d2 + 1)).head? ≠ some '0')
    (hlow : st.startYear ≤ digitsToNat (value.drop (d2 + 1)))
    (hhigh : digitsToNat (value.drop (d2 + 1)) ≤ st.endYear) :
    validateYear st value d2 =
      if checkIsLeapYear (value.drop (d2 + 1)) then
        ({ st with year := value.drop (d2 + 1) }, value)
      else (st, value.take (value.length - 1)) := by
  have hy : (if d2 = 0 then ([] : List Char) else value.drop (d2 + 1)) =
      value.drop (d2 + 1) := if_neg hd2
  have hne : value.drop (d2 + 1) ≠ [] := by
    intro h; rw [h] at hlen; simp at hlen
  have hn : jsNum (value.drop (d2 + 1)) = some (digitsToNat (value.drop (d2 + 1))) :=
    jsNum_digits _ hne hdig
  have hday' : st.day = ['2', '9'] := hday.trans (by decide)
  have hmonth' : st.month = ['2'] ∨ st.month = ['0', '2'] := by
    rcases hmonth with h | h
    · exact Or.inl (h.trans (by decide))
    · exact Or.inr (h.trans (by decide))
  have hsent : ¬ (st.day = ['0'] ∨ st.month = ['0']) := by
    rintro (h | h)
    · rw [hday'] at h; simp at h
    · rcases hmonth' with hm | hm <;> rw [hm] at h <;> simp at h
  have hA : ¬ (value.drop (d2 + 1) ≠ [] ∧
      ((value.drop (d2 + 1)).head? = some '0' ∨
        ((4 ≤ (value.drop (d2 + 1)).length ∧
            jsLT (jsNum (value.drop (d2 + 1))) st.startYear = true) ∨
          jsGT (jsNum (value.drop (d2 + 1))) st.endYear = true))) := by
    rintro ⟨-, h | ⟨-, h⟩ | h⟩
    · exact hhead h
    · rw [hn] at h; simp [jsLT] at h; omega
    · rw [hn] at h; simp [jsGT] at h; omega
  by_cases hleap : checkIsLeapYear (value.drop (d2 + 1)) = true
  · have hB : ¬ (value.drop (d2 + 1) ≠ [] ∧
        (st.month = ['2'] ∨ st.month = ['0', '2']) ∧ st.day = ['2', '9'] ∧
        (value.drop (d2 + 1)).length = 4 ∧
        checkIsLeapYear (value.drop (d2 + 1)) = false) := by
      rintro ⟨-, -, -, -, h⟩
      rw [hleap] at h
      simp at h
    simp only [validateYear, hy]
    rw [if_neg hsent, if_neg hA, if_neg hB, if_pos hleap]
  · have hleap' : checkIsLeapYear (value.drop (d2 + 1)) = false := by
      revert hleap
      cases checkIsLeapYear (value.drop (d2 + 1)) <;> simp
    have hB : value.drop (d2 + 1) ≠ [] ∧
        (st.month = ['2'] ∨ st.month = ['0', '2']) ∧ st.day = ['2', '9'] ∧
        (value.drop (d2 + 1)).length = 4 ∧
        checkIsLeapYear (value.drop (d2 + 1)) = false :=
      ⟨hne, hmonth', hday', hlen, hleap'⟩
    simp only [validateYear, hy]
    rw [if_neg hsent, if_neg hA, if_pos hB, if_neg (by simp [hleap'])]

/-- Witness for C1: the spec's own examples — `"02/29/2019"` loses the last
year digit (2019 is no leap year) and `"02/29/2020"` is accepted in full. -/
theorem claim_C1_witness :
    validateYear ⟨DateFormat.mdy, 1000, 9999, jstr "29", jstr "02", [], []⟩
        (jstr "02/29/2019") 5 =
      (⟨DateFormat.mdy, 1000, 9999, jstr "29", jstr "02", [], []⟩,
        jstr "02/29/201") ∧
    validateYear ⟨DateFormat.mdy, 1000, 9999, jstr "29", jstr "02", [], []⟩
        (jstr "02/29/2020") 5 =
      (⟨DateFormat.mdy, 1000, 9999, jstr "29", jstr "02", jstr "2020", []⟩,
        jstr "02/29/2020") := by
  constructor
  · have h := claim_C1_amended ⟨DateFormat.mdy, 1000, 9999, jstr "29", jstr "02", [], []⟩
      (jstr "02/29/2019") 5 rfl rfl (Or.inr rfl) (by decide) (by decide)
      (by decide) (by decide) (by decide) (by decide)
    exact h.trans (by decide)
  · have h := claim_C1_amended ⟨DateFormat.mdy, 1000, 9999, jstr "29", jstr "02", [], []⟩
      (jstr "02/29/2020") 5 rfl rfl (Or.inr rfl) (by decide) (by decide)
      (by decide) (by decide) (by decide) (by decide)
    exact h.trans (by decide)

/-- Claim C7: `finalize` (`clearDateIfNotValid`) clears the display and
leaves the committed date untouched when the stored day or month is empty or
the year's numeric value is outside `[startYear, endYear]` (an empty year
comparing as 0); otherwise it commits `day/month/year` — day-month-year
order regardless of display format — and keeps the display. -/
theorem claim_C7 (st : ParserState) (display : List Char) (n : Nat)
    (hn : jsNum st.year = some n) :
    ((st.day = [] ∨ st.month = [] ∨ n < st.startYear ∨ st.endYear < n) →
      clearDateIfNotValid st display = (st, [])) ∧
    (st.day ≠ [] → st.month ≠ [] → st.startYear ≤ n → n ≤ st.endYear →
      clearDateIfNotValid st display =
        ({ st with date := st.day ++ '/' :: (st.month ++ '/' :: st.year) },
          display)) := by
  constructor
  · intro h
    rw [clearDateIfNotValid, if_pos]
    rcases h with h | h | h | h
    · exact Or.inl h
    · exact Or.inr (Or.inl h)
    · exact Or.inr (Or.inr (Or.inl (by rw [hn]; simpa [jsLT] using h)))
    · exact Or.inr (Or.inr (Or.inr (by rw [hn]; simpa [jsGT] using h)))
  · intro hd hm hlow hhigh
    rw [clearDateIfNotValid, if_neg]
    rintro (h | h | h | h)
    · exact hd h
    · exact hm h
    · rw [hn] at h; simp [jsLT] at h; omega
    · rw [hn] at h; simp [jsGT] at h; omega

/-- Witness for C7: after processing the fully valid MDY input
`"03/15/2024"`, finalizing commits `"15/03/2024"` — day/month/year order. -/
theorem claim_C7_witness :
    (clearDateIfNotValid (restrictInput defMDY (jstr "03/15/2024")).1
        (jstr "03/15/2024")).1.date = jstr "15/03/2024" := by
  have h := (claim_C7 (restrictInput defMDY (jstr "03/15/2024")).1
    (jstr "03/15/2024") 2024 (by decide)).2 (by decide) (by decide)
    (by decide) (by decide)
  rw [h]
  decide

/-- Witness for C3 (amended): one month from each bucket, a non-numeric
month, evaluated through the amended characterization. -/
theorem claim_C3_witness :
    getNoOfDays (jstr "1") = 31 ∧ getNoOfDays (jstr "4") = 30 ∧
    getNoOfDays (jstr "2") = 29 ∧ getNoOfDays (jstr "1/") = 29 :=
  ⟨(claim_C3_amended.2.1 (jstr "1") 1 (by decide)).1 (by decide),
    (claim_C3_amended.2.1 (jstr "4") 4 (by decide)).2.1 (by decide),
    (claim_C3_amended.2.1 (jstr "2") 2 (by decide)).2.2 (by decide) (by decide)
      (by decide),
    claim_C3_amended.2.2 (jstr "1/") (by decide)⟩

/-- Witness for C4 (amended): `"012"` (value above 9) loses its zeros while
`"03"` (value at most 9) keeps its single leading zero. -/
theorem claim_C4_witness :
    removeLeadingZero (jstr "012") = (jstr "012").dropWhile (· = '0') ∧
    removeLeadingZero (jstr "03") =
      (if (jstr "03").head? = some '0' then '0' :: (jstr "03").dropWhile (· = '0')
       else jstr "03") :=
  ⟨claim_C4_amended.1 (jstr "012") (by decide),
    claim_C4_amended.2.1 (jstr "03") (by decide)⟩
